import Mathlib

/-!
Verification of the moving-average-crossover backtest engine in
`src/strategies/views.py` (`BacktestResultViewSet._execute_backtest`) and its
near-duplicate copy in `src/backend/strategies/views.py`.

Modelling conventions:
* Prices, cash and percentages are carried exactly as rationals (`ℚ`); the
  Python code uses binary floats and stores `Decimal(str(round(x, 2)))`.
  The display rounding on storage is not modelled — every claim checked here
  concerns which values are recorded and how they relate, not their printed
  precision.
* Dates are abstract day numbers (`Nat`); `timezone.make_aware` /
  `Timestamp.date()` conversions in the source preserve the calendar day and
  are therefore identity in the model.
* `pandas.Series.rolling(w).mean()` is defined at index `i` iff at least `w`
  observations exist (`min_periods` defaults to the window size); undefined
  values (`NaN`) are modelled as `Option.none`.
* Python `int(x)` truncates toward zero (`pyInt`).
-/

/-- One daily price bar.  Only `date` and `close` are read by the engine. -/
structure Bar where
  date : Nat
  close : ℚ
deriving Repr, DecidableEq

/-- The engine parameters taken from `params` in `_execute_backtest`. -/
structure Params where
  shortPeriod : Nat
  longPeriod : Nat
  stopLossPct : ℚ
  takeProfitPct : ℚ
  startingAmount : ℚ
deriving Repr, DecidableEq

/-- Closing prices of a bar series. -/
def closesOf (bars : List Bar) : List ℚ := bars.map (·.close)

/-- Simple moving average, as computed by
`stock_data['Close'].rolling(w).mean()`: at index `i` the mean of the trailing
`w` closes ending at `i`, `none` (NaN) while fewer than `w` bars have been
observed or the window is degenerate. -/
def sma (w : Nat) (closes : List ℚ) (i : Nat) : Option ℚ :=
  if w = 0 ∨ i + 1 < w ∨ closes.length ≤ i then none
  else some (((closes.drop (i + 1 - w)).take w).sum / (w : ℚ))

/-- Python `int(x)`: truncation toward zero. -/
def pyInt (q : ℚ) : Int := if 0 ≤ q then ⌊q⌋ else ⌈q⌉

/-- The open position dict `{'quantity': …, 'entry_price': …, 'entry_date': …}`. -/
structure Position where
  quantity : Nat
  entryPrice : ℚ
  entryDate : Nat
deriving Repr, DecidableEq

/-- A `Trade` row as created by `Trade.objects.create` (entry data of the
closed position plus the exit bar's date and price). -/
structure TradeRec where
  entryDate : Nat
  entryPrice : ℚ
  quantity : Nat
  exitDate : Nat
  exitPrice : ℚ
deriving Repr, DecidableEq

/-- A `DailyPortfolioSnapshot` row. -/
structure Snapshot where
  date : Nat
  totalPortfolioValue : ℚ
  cashBalance : ℚ
  dailyReturn : ℚ
  peakPortfolioValue : ℚ
  drawdown : ℚ
  openPositionsCount : Nat
deriving Repr, DecidableEq

/-- The mutable loop state of `_execute_backtest` together with the rows the
loop has written so far. -/
structure EngineState where
  cash : ℚ
  position : Option Position
  portfolioValue : ℚ
  peakValue : ℚ
  tradesCount : Nat
  trades : List TradeRec
  snapshots : List Snapshot
deriving Repr, DecidableEq

/-- Loop-state initialisation (`cash = float(starting_amount)`, no position,
`portfolio_value = cash`, `peak_value = cash`, `trades_count = 0`). -/
def initState (P : Params) : EngineState :=
  { cash := P.startingAmount
    position := none
    portfolioValue := P.startingAmount
    peakValue := P.startingAmount
    tradesCount := 0
    trades := []
    snapshots := [] }

/-- Bar lookup with a dummy default (all uses are index-guarded). -/
def barAt (bars : List Bar) (i : Nat) : Bar := bars.getD i ⟨0, 0⟩

/-- The part of the loop body that runs after the daily snapshot has been
created: the stop-loss/take-profit check (which `continue`s past the
crossover block on a risk exit) followed by the golden-cross / death-cross
block.  This code is line-for-line the same trading logic in both engine
copies (`src/strategies/views.py` lines 118–176 and
`src/backend/strategies/views.py` lines 247–319), so both models share it. -/
def afterSnapshot (P : Params) (bars : List Bar) (i : Nat)
    (sShort sLong : ℚ) (st : EngineState) : EngineState :=
  let price := (barAt bars i).close
  let exitNow : Position → EngineState := fun pos =>
    { st with
      cash := st.cash + (pos.quantity : ℚ) * price
      trades := st.trades ++
        [⟨pos.entryDate, pos.entryPrice, pos.quantity, (barAt bars i).date, price⟩]
      tradesCount := st.tradesCount + 1
      position := none }
  let crossover : EngineState :=
    if i = 0 then st
    else
      match sma P.shortPeriod (closesOf bars) (i - 1),
            sma P.longPeriod (closesOf bars) (i - 1) with
      | some pShort, some pLong =>
        if pShort ≤ pLong ∧ sLong < sShort ∧ st.position = none then
          let shares := pyInt (st.cash / price)
          if 0 < shares then
            { st with
              position := some ⟨shares.toNat, price, (barAt bars i).date⟩
              cash := st.cash - (shares.toNat : ℚ) * price }
          else st
        else
          match st.position with
          | some pos =>
            if pLong ≤ pShort ∧ sShort < sLong then exitNow pos else st
          | none => st
      | _, _ => st
  match st.position with
  | some pos =>
    let stopPrice := pos.entryPrice * (1 - P.stopLossPct / 100)
    let takeProfitPrice := pos.entryPrice * (1 + P.takeProfitPct / 100)
    if price ≤ stopPrice ∨ takeProfitPrice ≤ price then exitNow pos
    else crossover
  | none => crossover

/-- Mark-to-market value (`cash + quantity * close` while holding, else
`cash`). -/
def barPV (st : EngineState) (price : ℚ) : ℚ :=
  match st.position with
  | some pos => st.cash + (pos.quantity : ℚ) * price
  | none => st.cash

/-- The snapshot row written for one bar, parameterised by the
`daily_return` argument of the `create` call (the only field on which the
two engine copies differ). -/
def snapOf (st : EngineState) (date : Nat) (price : ℚ) (dr : ℚ) : Snapshot :=
  let pv := barPV st price
  let peak := if st.peakValue < pv then pv else st.peakValue
  { date := date
    totalPortfolioValue := pv
    cashBalance := st.cash
    dailyReturn := dr
    peakPortfolioValue := peak
    drawdown := if 0 < peak then (peak - pv) / peak * 100 else 0
    openPositionsCount := if st.position.isSome then 1 else 0 }

/-- One iteration of the simulation loop of `src/strategies/views.py`
(lines 88–176): bars with an undefined indicator are skipped outright
(`continue` before the snapshot), otherwise the portfolio is marked to the
current close, the peak/drawdown updated, the snapshot written (with
`daily_return = Decimal('0.00')`), and then the risk/signal logic runs. -/
def stepBar (P : Params) (bars : List Bar) (i : Nat) (st : EngineState) :
    EngineState :=
  match sma P.shortPeriod (closesOf bars) i, sma P.longPeriod (closesOf bars) i with
  | some sShort, some sLong =>
    let price := (barAt bars i).close
    let pv := barPV st price
    afterSnapshot P bars i sShort sLong
      { st with
        portfolioValue := pv
        peakValue := if st.peakValue < pv then pv else st.peakValue
        snapshots := st.snapshots ++ [snapOf st (barAt bars i).date price 0] }
  | _, _ => st

/-- Whether both rolling averages are defined (non-NaN) at bar `i`. -/
def bothDefined (P : Params) (bars : List Bar) (i : Nat) : Bool :=
  (sma P.shortPeriod (closesOf bars) i).isSome &&
    (sma P.longPeriod (closesOf bars) i).isSome

/-- The simulation loop run over the first `n` bars. -/
def runUpTo (P : Params) (bars : List Bar) (n : Nat) : EngineState :=
  (List.range n).foldl (fun st i => stepBar P bars i st) (initState P)

/-- The full simulation loop (`for i, (date, row) in enumerate(...)`). -/
def runLoop (P : Params) (bars : List Bar) : EngineState :=
  runUpTo P bars bars.length

/-- The `daily_return_pct` computation of the backend copy
(`src/backend/strategies/views.py` lines 222–231): 0 on the first bar or when
no snapshot exists yet, otherwise the percentage change against the
previously stored snapshot.  The query
`filter(backtest=...).order_by('-date').first()` returns the snapshot with
the greatest date; snapshots are written in bar order and the bar series is
date-sorted (the spec's Bar invariant), so this is the last appended
snapshot. -/
def dailyReturnB (st : EngineState) (i : Nat) (pv : ℚ) : ℚ :=
  if i = 0 then 0
  else
    match st.snapshots.getLast? with
    | some prev =>
      (pv - prev.totalPortfolioValue) / prev.totalPortfolioValue * 100
    | none => 0

/-- One iteration of the simulation loop of the backend copy
(`src/backend/strategies/views.py` lines 193–321).  Identical to `stepBar`
except that the snapshot's `daily_return` is computed rather than the
constant `Decimal('0.00')`. -/
def stepBarB (P : Params) (bars : List Bar) (i : Nat) (st : EngineState) :
    EngineState :=
  match sma P.shortPeriod (closesOf bars) i, sma P.longPeriod (closesOf bars) i with
  | some sShort, some sLong =>
    let price := (barAt bars i).close
    let pv := barPV st price
    afterSnapshot P bars i sShort sLong
      { st with
        portfolioValue := pv
        peakValue := if st.peakValue < pv then pv else st.peakValue
        snapshots := st.snapshots ++
          [snapOf st (barAt bars i).date price (dailyReturnB st i pv)] }
  | _, _ => st

/-- The backend copy's loop over the first `n` bars. -/
def runUpToB (P : Params) (bars : List Bar) (n : Nat) : EngineState :=
  (List.range n).foldl (fun st i => stepBarB P bars i st) (initState P)

/-- The backend copy's full simulation loop. -/
def runLoopB (P : Params) (bars : List Bar) : EngineState :=
  runUpToB P bars bars.length

/-- Post-loop forced liquidation (`# Close any remaining position`): if still
holding, sell at the last bar's close and append one more Trade. -/
def liquidate (bars : List Bar) (st : EngineState) : EngineState :=
  match st.position with
  | some pos =>
    let lastBar := barAt bars (bars.length - 1)
    { st with
      cash := st.cash + (pos.quantity : ℚ) * lastBar.close
      trades := st.trades ++
        [⟨pos.entryDate, pos.entryPrice, pos.quantity, lastBar.date, lastBar.close⟩]
      tradesCount := st.tradesCount + 1
      position := none }
  | none => st

/-- The final `BacktestResult` fields written after the loop
(`# Update backtest results`, lines 193–205).  Note `lowest_stock_value`
is `min(portfolio_value, starting_amount)` on the *last* value of the loop
variable, and `drawdown` compares the peak against final cash only. -/
structure Outcome where
  startingAmount : ℚ
  closingAmount : ℚ
  totalProfit : ℚ
  totalReturns : ℚ
  numberOfTrades : Nat
  peakStockValue : ℚ
  lowestStockValue : ℚ
  drawdown : ℚ
deriving Repr, DecidableEq

/-- Summarisation of the final loop state into the stored outcome fields. -/
def summarize (P : Params) (st : EngineState) : Outcome :=
  let finalValue := st.cash
  let profit := finalValue - P.startingAmount
  { startingAmount := P.startingAmount
    closingAmount := finalValue
    totalProfit := profit
    totalReturns := profit / P.startingAmount * 100
    numberOfTrades := st.tradesCount
    peakStockValue := st.peakValue
    lowestStockValue :=
      if st.portfolioValue ≤ P.startingAmount then st.portfolioValue
      else P.startingAmount
    drawdown := (st.peakValue - finalValue) / st.peakValue * 100 }

/-- The one failure `_execute_backtest` can raise itself:
`ValueError("No data found for …")` on an empty bar series. -/
inductive RunError where
  | dataUnavailable
deriving Repr, DecidableEq

/-- Everything a completed run hands back: the outcome row, the trade ledger
and the snapshot series. -/
structure RunResult where
  outcome : Outcome
  trades : List TradeRec
  snapshots : List Snapshot
deriving Repr, DecidableEq

/-- The whole of `_execute_backtest` on an already-fetched bar series:
empty data raises, otherwise the loop runs, any open position is liquidated
at the last close, and the outcome fields are computed. -/
def executeBacktest (P : Params) (bars : List Bar) :
    Except RunError RunResult :=
  if bars.isEmpty then .error .dataUnavailable
  else
    let st := liquidate bars (runLoop P bars)
    .ok ⟨summarize P st, st.trades, st.snapshots⟩

/-- The raw request body fields of `BacktestCreateSerializer`
(`src/strategies/serializers.py` lines 28–37).  Window fields are DRF
`IntegerField`s and may be any integer; dates are arbitrary `DateField`s. -/
structure RawConfig where
  stockSymbol : String
  startDate : Nat
  endDate : Nat
  shortPeriod : Int
  longPeriod : Int
  stopLossPct : ℚ
  takeProfitPct : ℚ
  startingAmount : ℚ
deriving Repr, DecidableEq

/-- DRF `DecimalField(max_digits, decimal_places)` validation: at most
`decimal_places` fractional digits and fewer than
`10 ^ (max_digits - decimal_places)` in magnitude.  No sign constraint. -/
def decimalOk (maxDigits decimalPlaces : Nat) (q : ℚ) : Bool :=
  (q * (10 : ℚ) ^ decimalPlaces).den == 1 &&
    decide (|q| < (10 : ℚ) ^ (maxDigits - decimalPlaces))

/-- Everything `BacktestCreateSerializer.is_valid()` checks: a non-blank
symbol of at most 10 characters and the digit bounds of the three decimal
fields.  There is no check on window sign, starting-cash sign, or date
order. -/
def validateConfig (c : RawConfig) : Bool :=
  decide (0 < c.stockSymbol.length) && decide (c.stockSymbol.length ≤ 10) &&
    decimalOk 5 2 c.stopLossPct && decimalOk 5 2 c.takeProfitPct &&
    decimalOk 12 2 c.startingAmount

/-- Handing validated fields to the engine.  The window integers are passed
to `rolling()` as-is in the source, where a negative window raises a pandas
`ValueError` before the loop; `Int.toNat` here is only an embedding device,
so no theorem below asserts engine behaviour unless both windows are
positive (likewise, `starting_amount = 0` raises `ZeroDivisionError` at the
returns computation in the source, so run-completion statements also
require a non-zero starting amount and, per the Bar invariant, positive
closes). -/
def toParams (c : RawConfig) : Params :=
  ⟨c.shortPeriod.toNat, c.longPeriod.toNat, c.stopLossPct, c.takeProfitPct,
    c.startingAmount⟩

/-- Outcome of the `run_backtest` action: a serializer 400, or whatever the
engine does. -/
inductive ApiError where
  | badRequest
  | engineError (e : RunError)
deriving Repr, DecidableEq

/-- The `run_backtest` action (`src/strategies/views.py` lines 22–29) on an
already-fetched bar series: validate the request fields, then execute. -/
def runBacktestApi (c : RawConfig) (bars : List Bar) :
    Except ApiError RunResult :=
  if validateConfig c then
    match executeBacktest (toParams c) bars with
    | .ok r => .ok r
    | .error e => .error (.engineError e)
  else .error .badRequest

/-- A database write performed during `_execute_backtest`, in program
order: the placeholder `BacktestResult` row created before the loop, the
per-bar snapshot and trade rows, and the final result update. -/
inductive Effect where
  | createResult
  | createSnapshot (s : Snapshot)
  | createTrade (t : TradeRec)
  | updateResult (o : Outcome)
deriving Repr, DecidableEq

/-- How a run can abort: the pre-loop empty-data `ValueError`, or the
`unique_together ['backtest', 'date']` constraint of
`DailyPortfolioSnapshot` (models.py line 199) rejecting a duplicate-date
snapshot insert mid-loop. -/
inductive DbFailure where
  | dataUnavailable
  | duplicateSnapshotDate
deriving Repr, DecidableEq

/-- The rows a step appended, as effects (the snapshot insert precedes any
trade insert within one bar body). -/
def newEffects (old new : EngineState) : List Effect :=
  ((new.snapshots.drop old.snapshots.length).map .createSnapshot) ++
    ((new.trades.drop old.trades.length).map .createTrade)

/-- The loop of `_execute_backtest` with its database writes made explicit.
Fuel counts the remaining iterations (`runTrace` supplies `bars.length`).
The boolean is false when the duplicate-date constraint aborted the run;
effects written before the abort are kept, as the source wraps nothing in a
transaction. -/
def traceLoop (P : Params) (bars : List Bar) :
    Nat → Nat → EngineState → List Effect → List Effect × EngineState × Bool
  | 0, _, st, effs => (effs, st, true)
  | fuel + 1, i, st, effs =>
    if bothDefined P bars i then
      if st.snapshots.any (fun s => s.date = (barAt bars i).date) then
        (effs, st, false)
      else
        traceLoop P bars fuel (i + 1) (stepBar P bars i st)
          (effs ++ newEffects st (stepBar P bars i st))
    else traceLoop P bars fuel (i + 1) st effs

/-- The observable database writes of one `_execute_backtest` call together
with how it ended: empty data raises before anything is written; otherwise
the result row is created, the loop writes rows as it goes, and on normal
completion the liquidation trade (if any) and the result update follow. -/
def runTrace (P : Params) (bars : List Bar) :
    List Effect × Option DbFailure :=
  if bars.isEmpty then ([], some .dataUnavailable)
  else
    match traceLoop P bars bars.length 0 (initState P) [Effect.createResult] with
    | (effs, st, true) =>
      let st2 := liquidate bars st
      (effs ++ ((st2.trades.drop st.trades.length).map Effect.createTrade) ++
        [Effect.updateResult (summarize P st2)], none)
    | (effs, _, false) => (effs, some .duplicateSnapshotDate)

/-!
Concrete inputs used by the counterexamples and witnesses below.
-/

/-- Demonstration parameters: windows 1 and 2, stop-loss 90 %, take-profit
1000 % (so no risk exit fires on `demoBars`), starting cash 100. -/
def Pdemo : Params := ⟨1, 2, 90, 1000, 100⟩

/-- A seven-bar series: flat, dip, golden cross at bar 3, crash to 5,
death-cross sale, re-entry at bar 5 and recovery to 20. -/
def demoBars : List Bar :=
  [⟨0, 10⟩, ⟨1, 10⟩, ⟨2, 9⟩, ⟨3, 10⟩, ⟨4, 5⟩, ⟨5, 10⟩, ⟨6, 20⟩]

/-- Windows 2 and 3 with the default risk percentages. -/
def Pwide : Params := ⟨2, 3, 1, 50, 100⟩

/-- A single bar — fewer bars than the smaller window of `Pwide`. -/
def oneBar : List Bar := [⟨1, 10⟩]

/-- Windows 1 and 1, so every bar has defined indicators. -/
def Pone : Params := ⟨1, 1, 1, 50, 100⟩

/-- Two bars sharing one calendar date, violating the snapshot
unique-date constraint on the second insert. -/
def dupBars : List Bar := [⟨5, 10⟩, ⟨5, 11⟩]

/-- A request that is invalid per the spec's InvalidConfiguration taxonomy
(negative starting cash, startDate after endDate) yet passes every check
the serializer makes. -/
def cfgBad : RawConfig := ⟨"A", 9, 3, 1, 2, 1, 50, -100⟩

/-!
Structural lemmas about the loop body.
-/

/-- The post-snapshot logic never reads the snapshot list: changing only
`snapshots` in its input changes only `snapshots` in its output. -/
lemma afterSnapshot_frame (P : Params) (bars : List Bar) (i : Nat)
    (sS sL : ℚ) (st : EngineState) (S : List Snapshot) :
    afterSnapshot P bars i sS sL { st with snapshots := S } =
      { afterSnapshot P bars i sS sL st with snapshots := S } := by
  obtain ⟨c, pos, pv0, pk, tc, tr, sn⟩ := st
  cases pos <;> simp only [afterSnapshot] <;>
    repeat' first
      | rfl
      | split

/-- The post-snapshot logic never writes the snapshot list. -/
lemma afterSnapshot_snapshots (P : Params) (bars : List Bar) (i : Nat)
    (sS sL : ℚ) (st : EngineState) :
    (afterSnapshot P bars i sS sL st).snapshots = st.snapshots := by
  have h := afterSnapshot_frame P bars i sS sL st st.snapshots
  calc (afterSnapshot P bars i sS sL st).snapshots
      = (afterSnapshot P bars i sS sL { st with snapshots := st.snapshots }).snapshots := rfl
    _ = st.snapshots := by rw [h]

/-- A bar with an undefined indicator is a complete no-op (`continue`
before any write). -/
lemma stepBar_undef (P : Params) (bars : List Bar) (i : Nat)
    (st : EngineState) (h : bothDefined P bars i = false) :
    stepBar P bars i st = st := by
  unfold stepBar
  rcases hs : sma P.shortPeriod (closesOf bars) i with _ | s <;>
    rcases hl : sma P.longPeriod (closesOf bars) i with _ | l <;>
      simp_all [bothDefined]

/-- Backend copy: same no-op on undefined indicators. -/
lemma stepBarB_undef (P : Params) (bars : List Bar) (i : Nat)
    (st : EngineState) (h : bothDefined P bars i = false) :
    stepBarB P bars i st = st := by
  unfold stepBarB
  rcases hs : sma P.shortPeriod (closesOf bars) i with _ | s <;>
    rcases hl : sma P.longPeriod (closesOf bars) i with _ | l <;>
      simp_all [bothDefined]

/-- Unfolding one defined bar of the primary loop body. -/
lemma stepBar_def (P : Params) (bars : List Bar) (i : Nat)
    (st : EngineState) (sS sL : ℚ)
    (hs : sma P.shortPeriod (closesOf bars) i = some sS)
    (hl : sma P.longPeriod (closesOf bars) i = some sL) :
    stepBar P bars i st =
      afterSnapshot P bars i sS sL
        { st with
          portfolioValue := barPV st (barAt bars i).close
          peakValue :=
            if st.peakValue < barPV st (barAt bars i).close then
              barPV st (barAt bars i).close
            else st.peakValue
          snapshots := st.snapshots ++
            [snapOf st (barAt bars i).date (barAt bars i).close 0] } := by
  unfold stepBar
  rw [hs, hl]

/-- Unfolding one defined bar of the backend loop body. -/
lemma stepBarB_def (P : Params) (bars : List Bar) (i : Nat)
    (st : EngineState) (sS sL : ℚ)
    (hs : sma P.shortPeriod (closesOf bars) i = some sS)
    (hl : sma P.longPeriod (closesOf bars) i = some sL) :
    stepBarB P bars i st =
      afterSnapshot P bars i sS sL
        { st with
          portfolioValue := barPV st (barAt bars i).close
          peakValue :=
            if st.peakValue < barPV st (barAt bars i).close then
              barPV st (barAt bars i).close
            else st.peakValue
          snapshots := st.snapshots ++
            [snapOf st (barAt bars i).date (barAt bars i).close
              (dailyReturnB st i (barPV st (barAt bars i).close))] } := by
  unfold stepBarB
  rw [hs, hl]

/-- Peeling the last iteration off the primary loop. -/
lemma runUpTo_succ (P : Params) (bars : List Bar) (n : Nat) :
    runUpTo P bars (n + 1) = stepBar P bars n (runUpTo P bars n) := by
  unfold runUpTo
  rw [List.range_succ, List.foldl_append, List.foldl_cons, List.foldl_nil]

/-- Peeling the last iteration off the backend loop. -/
lemma runUpToB_succ (P : Params) (bars : List Bar) (n : Nat) :
    runUpToB P bars (n + 1) = stepBarB P bars n (runUpToB P bars n) := by
  unfold runUpToB
  rw [List.range_succ, List.foldl_append, List.foldl_cons, List.foldl_nil]

/-- A step adds one snapshot when both indicators are defined, none
otherwise. -/
lemma stepBar_snapshots_length (P : Params) (bars : List Bar) (i : Nat)
    (st : EngineState) :
    (stepBar P bars i st).snapshots.length =
      st.snapshots.length + (if bothDefined P bars i then 1 else 0) := by
  rcases hb : bothDefined P bars i with _ | _
  · rw [stepBar_undef P bars i st hb, if_neg (by simp), Nat.add_zero]
  · have hs := hb
    unfold bothDefined at hs
    rw [Bool.and_eq_true, Option.isSome_iff_exists, Option.isSome_iff_exists] at hs
    obtain ⟨⟨sS, hS⟩, sL, hL⟩ := hs
    rw [stepBar_def P bars i st sS sL hS hL, afterSnapshot_snapshots]
    simp

/-- C1, amended.  One snapshot is emitted per bar on which both moving
averages are defined; a bar with an undefined indicator is skipped entirely
— no state change and *no* snapshot — so the number of snapshots equals the
number of indicator-defined bars, not the number of bars processed. -/
theorem snapshot_count_defined_bars (P : Params) (bars : List Bar) :
    (runLoop P bars).snapshots.length =
      ((List.range bars.length).filter (fun i => bothDefined P bars i)).length ∧
    ∀ i st, bothDefined P bars i = false → stepBar P bars i st = st := by
  refine ⟨?_, fun i st h => stepBar_undef P bars i st h⟩
  show (runUpTo P bars bars.length).snapshots.length = _
  induction bars.length with
  | zero => rfl
  | succ n ih =>
    rw [runUpTo_succ, stepBar_snapshots_length, ih, List.range_succ,
      List.filter_append, List.length_append, List.filter_singleton]
    rcases hb : bothDefined P bars n with _ | _ <;> simp [hb]

/-- Witness for `snapshot_count_defined_bars`: bar 0 of `demoBars` has an
undefined long average and is a no-op. -/
theorem snapshot_count_defined_bars_witness :
    stepBar Pdemo demoBars 0 (initState Pdemo) = initState Pdemo :=
  (snapshot_count_defined_bars Pdemo demoBars).2 0 (initState Pdemo)
    (by with_unfolding_all rfl)

/-- C3, amended.  A non-empty series shorter than the smaller window never
defines an indicator, but the run does not fail: every bar is skipped and a
degenerate Outcome (closing = starting, zero trades, no snapshots) is
returned.  Only the empty series raises the (single) "no data" error; no
distinct InsufficientHistory condition exists. -/
theorem short_series_no_error (P : Params) (bars : List Bar)
    (hne : bars ≠ [])
    (hshort : bars.length < min P.shortPeriod P.longPeriod) :
    executeBacktest P bars =
      Except.ok ⟨summarize P (initState P), [], []⟩ ∧
    (summarize P (initState P)).closingAmount = P.startingAmount ∧
    (summarize P (initState P)).numberOfTrades = 0 := by
  have hall : ∀ i st, i < bars.length → stepBar P bars i st = st := by
    intro i st hi
    apply stepBar_undef
    have h1 : i + 1 < P.shortPeriod := by
      have := Nat.min_le_left P.shortPeriod P.longPeriod
      omega
    simp [bothDefined, sma, h1]
  have hrun : ∀ n, n ≤ bars.length → runUpTo P bars n = initState P := by
    intro n hn
    induction n with
    | zero => rfl
    | succ m ih =>
      rw [runUpTo_succ, ih (by omega), hall m (initState P) (by omega)]
  have hempty : bars.isEmpty = false := by
    cases bars with
    | nil => exact absurd rfl hne
    | cons a t => rfl
  refine ⟨?_, rfl, rfl⟩
  unfold executeBacktest runLoop
  rw [hempty, hrun bars.length le_rfl]
  rfl

/-- Witness for `short_series_no_error` at the one-bar series under
windows 2/3. -/
theorem short_series_no_error_witness :
    executeBacktest Pwide oneBar =
      Except.ok ⟨summarize Pwide (initState Pwide), [], []⟩ :=
  (short_series_no_error Pwide oneBar (by simp [oneBar]) (by decide)).1

/-- C4.  On a bar with defined indicators, if the account is holding and
the close is at or below the stop price or at or past the take-profit
price, the step is exactly the risk exit: the position is sold at the
bar's close, exactly one Trade carrying the position's entry data and this
bar's date/price is appended, the state ends FLAT — and the result is
independent of the crossover conditions, so no same-bar re-entry can
occur. -/
theorem risk_exit_step (P : Params) (bars : List Bar) (i : Nat)
    (st : EngineState) (pos : Position) (sS sL : ℚ)
    (hs : sma P.shortPeriod (closesOf bars) i = some sS)
    (hl : sma P.longPeriod (closesOf bars) i = some sL)
    (hpos : st.position = some pos)
    (htrig : (barAt bars i).close ≤ pos.entryPrice * (1 - P.stopLossPct / 100) ∨
      pos.entryPrice * (1 + P.takeProfitPct / 100) ≤ (barAt bars i).close) :
    stepBar P bars i st =
      { st with
        portfolioValue := barPV st (barAt bars i).close
        peakValue :=
          if st.peakValue < barPV st (barAt bars i).close then
            barPV st (barAt bars i).close
          else st.peakValue
        snapshots := st.snapshots ++
          [snapOf st (barAt bars i).date (barAt bars i).close 0]
        cash := st.cash + (pos.quantity : ℚ) * (barAt bars i).close
        trades := st.trades ++
          [⟨pos.entryDate, pos.entryPrice, pos.quantity,
            (barAt bars i).date, (barAt bars i).close⟩]
        tradesCount := st.tradesCount + 1
        position := none } := by
  obtain ⟨c, pos0, pv0, pk, tc, tr, sn⟩ := st
  simp only [EngineState.position] at hpos
  subst hpos
  rw [stepBar_def _ _ _ _ sS sL hs hl]
  simp only [afterSnapshot]
  rw [if_pos htrig]

/-- Concrete inputs for the risk-exit witness: a one-share position entered
at 100 with a 1 % stop, and a bar closing at 1. -/
def posRisk : Position := ⟨1, 100, 0⟩

/-- State holding `posRisk` with no cash. -/
def stRisk : EngineState := ⟨0, some posRisk, 100, 100, 0, [], []⟩

/-- Bars for the risk-exit witness; both windows are 1 so indicators are
defined at bar 1. -/
def barsRisk : List Bar := [⟨0, 10⟩, ⟨1, 1⟩]

/-- Witness for `risk_exit_step`: at bar 1 of `barsRisk` the stop fires,
the position closes and exactly one trade is recorded. -/
theorem risk_exit_step_witness :
    (stepBar Pone barsRisk 1 stRisk).position = none ∧
    (stepBar Pone barsRisk 1 stRisk).trades =
      [⟨0, 100, 1, 1, 1⟩] ∧
    (stepBar Pone barsRisk 1 stRisk).cash = 1 := by
  rw [risk_exit_step Pone barsRisk 1 stRisk posRisk 1 1
    (by with_unfolding_all rfl) (by with_unfolding_all rfl) rfl
    (Or.inl (by norm_num [barsRisk, barAt, posRisk, Pone]))]
  refine ⟨rfl, by with_unfolding_all rfl, by with_unfolding_all rfl⟩

/-- C5, amended.  The snapshot for a bar is computed *before* the bar's
risk-exit and crossover evaluation: its `cashBalance` and
`openPositionsCount` reflect the state at the start of the bar (with the
portfolio marked to the current close), so `openPositionsCount = 1`
exactly when the account was holding when the bar began — not when the
bar's decision is final. -/
theorem snapshot_start_of_bar (P : Params) (bars : List Bar) (i : Nat)
    (st : EngineState) (sS sL : ℚ)
    (hs : sma P.shortPeriod (closesOf bars) i = some sS)
    (hl : sma P.longPeriod (closesOf bars) i = some sL) :
    (stepBar P bars i st).snapshots =
      st.snapshots ++ [snapOf st (barAt bars i).date (barAt bars i).close 0] ∧
    (snapOf st (barAt bars i).date (barAt bars i).close 0).openPositionsCount =
      (if st.position.isSome then 1 else 0) ∧
    (snapOf st (barAt bars i).date (barAt bars i).close 0).cashBalance =
      st.cash ∧
    (snapOf st (barAt bars i).date (barAt bars i).close 0).totalPortfolioValue =
      barPV st (barAt bars i).close := by
  refine ⟨?_, rfl, rfl, rfl⟩
  rw [stepBar_def P bars i st sS sL hs hl, afterSnapshot_snapshots]

/-- Witness for `snapshot_start_of_bar`: the risk-exit bar of `barsRisk`
snapshots the pre-decision holding state. -/
theorem snapshot_start_of_bar_witness :
    (stepBar Pone barsRisk 1 stRisk).snapshots =
      stRisk.snapshots ++
        [snapOf stRisk (barAt barsRisk 1).date (barAt barsRisk 1).close 0] :=
  (snapshot_start_of_bar Pone barsRisk 1 stRisk 1 1
    (by with_unfolding_all rfl) (by with_unfolding_all rfl)).1

/-- The daily-return relation between consecutive snapshots claimed by the
spec: percentage change against the immediately preceding snapshot. -/
def returnStep (a b : Snapshot) : Prop :=
  b.dailyReturn =
    (b.totalPortfolioValue - a.totalPortfolioValue) /
      a.totalPortfolioValue * 100

/-- With no stored snapshot the backend daily return is 0. -/
lemma dailyReturnB_nil (st : EngineState) (i : Nat) (pv : ℚ)
    (h : st.snapshots = []) : dailyReturnB st i pv = 0 := by
  unfold dailyReturnB
  rw [h]
  split <;> rfl

/-- The primary engine stores 0 as the daily return of every snapshot. -/
lemma runUpTo_dailyReturn_zero (P : Params) (bars : List Bar) (n : Nat) :
    ∀ s ∈ (runUpTo P bars n).snapshots, s.dailyReturn = 0 := by
  induction n with
  | zero => intro s hs; simp [runUpTo, initState] at hs
  | succ n ih =>
    rw [runUpTo_succ]
    rcases hb : bothDefined P bars n with _ | _
    · rw [stepBar_undef P bars n _ hb]; exact ih
    · have hs := hb
      unfold bothDefined at hs
      rw [Bool.and_eq_true, Option.isSome_iff_exists, Option.isSome_iff_exists] at hs
      obtain ⟨⟨sS, hS⟩, sL, hL⟩ := hs
      rw [stepBar_def _ _ _ _ sS sL hS hL, afterSnapshot_snapshots]
      intro s hsm
      rcases List.mem_append.1 hsm with h | h
      · exact ih s h
      · rw [List.mem_singleton.1 h]; rfl

/-- The backend engine's snapshot series has daily return 0 on its first
snapshot and the consecutive-percentage-change relation afterwards. -/
lemma runUpToB_chain (P : Params) (bars : List Bar) (n : Nat) :
    (∀ s ∈ (runUpToB P bars n).snapshots.head?, s.dailyReturn = 0) ∧
    (runUpToB P bars n).snapshots.Chain' returnStep := by
  induction n with
  | zero => exact ⟨by intro s hs; simp [runUpToB, initState] at hs,
      by simp [runUpToB, initState]⟩
  | succ n ih =>
    rw [runUpToB_succ]
    rcases hb : bothDefined P bars n with _ | _
    · rw [stepBarB_undef P bars n _ hb]; exact ih
    · have hs := hb
      unfold bothDefined at hs
      rw [Bool.and_eq_true, Option.isSome_iff_exists, Option.isSome_iff_exists] at hs
      obtain ⟨⟨sS, hS⟩, sL, hL⟩ := hs
      rw [stepBarB_def _ _ _ _ sS sL hS hL, afterSnapshot_snapshots]
      constructor
      · rcases hl : (runUpToB P bars n).snapshots with _ | ⟨a, t⟩
        · intro s hsm
          simp only [List.nil_append, List.head?_cons, Option.mem_def,
            Option.some.injEq] at hsm
          rw [← hsm]
          exact dailyReturnB_nil _ _ _ hl
        · intro s hsm
          rw [List.cons_append, List.head?_cons] at hsm
          apply ih.1
          rw [hl, List.head?_cons]
          exact hsm
      · rw [List.chain'_append]
        refine ⟨ih.2, List.chain'_singleton _, ?_⟩
        intro x hx y hy
        simp only [List.head?_cons, Option.mem_def, Option.some.injEq] at hy
        rw [← hy]
        show returnStep x _
        unfold returnStep snapOf
        simp only []
        cases n with
        | zero =>
          have : (runUpToB P bars 0).snapshots = [] := rfl
          rw [this] at hx
          simp at hx
        | succ m =>
          rw [Option.mem_def] at hx
          unfold dailyReturnB
          rw [if_neg (Nat.succ_ne_zero m), hx]

/-- C6, amended.  In the primary engine (`src/strategies/views.py`) every
snapshot's dailyReturnPct is stored as the constant 0, first bar or not;
the claimed first-bar-0 / percentage-change-thereafter behaviour holds
only in the backend copy (`src/backend/strategies/views.py`). -/
theorem daily_return_recorded (P : Params) (bars : List Bar) :
    (∀ s ∈ (runLoop P bars).snapshots, s.dailyReturn = 0) ∧
    (∀ s ∈ (runLoopB P bars).snapshots.head?, s.dailyReturn = 0) ∧
    (runLoopB P bars).snapshots.Chain' returnStep :=
  ⟨runUpTo_dailyReturn_zero P bars bars.length,
    (runUpToB_chain P bars bars.length).1,
    (runUpToB_chain P bars bars.length).2⟩

/-- Witness for `daily_return_recorded`: the first backend snapshot of the
demonstration run has daily return 0. -/
theorem daily_return_recorded_witness :
    (⟨1, 100, 100, 0, 100, 0, 0⟩ : Snapshot).dailyReturn = 0 :=
  (daily_return_recorded Pdemo demoBars).2.1 ⟨1, 100, 100, 0, 100, 0, 0⟩
    (by with_unfolding_all rfl)

/-- Ledger discipline of the post-snapshot logic: a step that closes the
position appends exactly the exit trade at the current bar's date and
close; a step that starts flat, or ends still holding, leaves the ledger
untouched (in particular an entry creates no trade). -/
lemma afterSnapshot_ledger (P : Params) (bars : List Bar) (i : Nat)
    (sS sL : ℚ) (st : EngineState) :
    (∀ pos, st.position = some pos →
      (afterSnapshot P bars i sS sL st).position = none →
      (afterSnapshot P bars i sS sL st).trades = st.trades ++
        [⟨pos.entryDate, pos.entryPrice, pos.quantity,
          (barAt bars i).date, (barAt bars i).close⟩] ∧
      (afterSnapshot P bars i sS sL st).tradesCount = st.tradesCount + 1) ∧
    (st.position = none →
      (afterSnapshot P bars i sS sL st).trades = st.trades ∧
      (afterSnapshot P bars i sS sL st).tradesCount = st.tradesCount) ∧
    ((afterSnapshot P bars i sS sL st).position.isSome = true →
      (afterSnapshot P bars i sS sL st).trades = st.trades ∧
      (afterSnapshot P bars i sS sL st).tradesCount = st.tradesCount) := by
  obtain ⟨c, pos0, pv0, pk, tc, tr, sn⟩ := st
  cases pos0 <;>
    simp only [afterSnapshot] <;>
    (repeat' split) <;>
    refine ⟨?_, ?_, ?_⟩ <;> intros <;> simp_all

/-- The forced end-of-series liquidation: one trade at the last bar's
close and date when holding, a no-op when flat. -/
lemma liquidate_ledger (bars : List Bar) (st : EngineState) :
    (∀ pos, st.position = some pos →
      liquidate bars st =
        { st with
          cash := st.cash +
            (pos.quantity : ℚ) * (barAt bars (bars.length - 1)).close
          trades := st.trades ++
            [⟨pos.entryDate, pos.entryPrice, pos.quantity,
              (barAt bars (bars.length - 1)).date,
              (barAt bars (bars.length - 1)).close⟩]
          tradesCount := st.tradesCount + 1
          position := none }) ∧
    (st.position = none → liquidate bars st = st) := by
  obtain ⟨c, pos0, pv0, pk, tc, tr, sn⟩ := st
  cases pos0 with
  | none => exact ⟨fun pos h => (nomatch h), fun _ => rfl⟩
  | some p =>
    refine ⟨fun pos h => ?_, fun h => nomatch h⟩
    injection h with h1
    subst h1
    rfl

/-- C7.  Every HOLDING-to-FLAT transition — risk exit, death-cross exit, or
the forced end-of-series liquidation — appends exactly one Trade carrying
the position's entry date, price and quantity plus the exit bar's date and
close; a bar that starts flat, or that ends still holding, appends no
trade (so an entry never creates one), and the forced liquidation uses the
final bar's close and date. -/
theorem trade_per_transition (P : Params) (bars : List Bar) (i : Nat)
    (st : EngineState) :
    (∀ pos, st.position = some pos → (stepBar P bars i st).position = none →
      (stepBar P bars i st).trades = st.trades ++
        [⟨pos.entryDate, pos.entryPrice, pos.quantity,
          (barAt bars i).date, (barAt bars i).close⟩] ∧
      (stepBar P bars i st).tradesCount = st.tradesCount + 1) ∧
    (st.position = none →
      (stepBar P bars i st).trades = st.trades ∧
      (stepBar P bars i st).tradesCount = st.tradesCount) ∧
    ((stepBar P bars i st).position.isSome = true →
      (stepBar P bars i st).trades = st.trades ∧
      (stepBar P bars i st).tradesCount = st.tradesCount) ∧
    (∀ pos, st.position = some pos →
      liquidate bars st =
        { st with
          cash := st.cash +
            (pos.quantity : ℚ) * (barAt bars (bars.length - 1)).close
          trades := st.trades ++
            [⟨pos.entryDate, pos.entryPrice, pos.quantity,
              (barAt bars (bars.length - 1)).date,
              (barAt bars (bars.length - 1)).close⟩]
          tradesCount := st.tradesCount + 1
          position := none }) ∧
    (st.position = none → liquidate bars st = st) := by
  rcases hb : bothDefined P bars i with _ | _
  · rw [stepBar_undef P bars i st hb]
    refine ⟨fun pos hpos hnone => ?_, fun _ => ⟨rfl, rfl⟩, fun _ => ⟨rfl, rfl⟩,
      (liquidate_ledger bars st).1, (liquidate_ledger bars st).2⟩
    rw [hpos] at hnone
    cases hnone
  · have hs := hb
    unfold bothDefined at hs
    rw [Bool.and_eq_true, Option.isSome_iff_exists, Option.isSome_iff_exists] at hs
    obtain ⟨⟨sS, hS⟩, sL, hL⟩ := hs
    rw [stepBar_def P bars i st sS sL hS hL]
    have H := afterSnapshot_ledger P bars i sS sL
      { st with
        portfolioValue := barPV st (barAt bars i).close
        peakValue :=
          if st.peakValue < barPV st (barAt bars i).close then
            barPV st (barAt bars i).close
          else st.peakValue
        snapshots := st.snapshots ++
          [snapOf st (barAt bars i).date (barAt bars i).close 0] }
    exact ⟨H.1, H.2.1, H.2.2,
      (liquidate_ledger bars st).1, (liquidate_ledger bars st).2⟩

/-- Witness for `trade_per_transition`: the risk exit at bar 1 of
`barsRisk` appends exactly one trade. -/
theorem trade_per_transition_witness :
    (stepBar Pone barsRisk 1 stRisk).trades = stRisk.trades ++
      [⟨posRisk.entryDate, posRisk.entryPrice, posRisk.quantity,
        (barAt barsRisk 1).date, (barAt barsRisk 1).close⟩] ∧
    (stepBar Pone barsRisk 1 stRisk).tradesCount = stRisk.tradesCount + 1 :=
  (trade_per_transition Pone barsRisk 1 stRisk).1 posRisk rfl
    (by with_unfolding_all rfl)

/-- C8, amended.  The serializer checks only field-level constraints
(symbol length, decimal digit bounds): a configuration with non-positive
windows, non-positive starting cash or startDate > endDate still passes
validation — nothing is rejected as an invalid configuration.  When the
run additionally avoids the source's unrelated crash paths (positive
windows, else pandas raises at `rolling()`; non-zero starting cash, else
the returns computation divides by zero; positive closes and a non-empty
series), it runs to completion and produces a full Outcome, e.g. for
strictly negative starting cash or reversed dates. -/
theorem validation_field_level_only (c : RawConfig) (bars : List Bar)
    (hsym1 : 0 < c.stockSymbol.length) (hsym2 : c.stockSymbol.length ≤ 10)
    (hsl : decimalOk 5 2 c.stopLossPct = true)
    (htp : decimalOk 5 2 c.takeProfitPct = true)
    (hamt : decimalOk 12 2 c.startingAmount = true)
    (hbad : c.startingAmount ≤ 0 ∨ c.endDate < c.startDate ∨
      c.shortPeriod ≤ 0 ∨ c.longPeriod ≤ 0) :
    validateConfig c = true ∧
    (0 < c.shortPeriod → 0 < c.longPeriod → c.startingAmount ≠ 0 →
      (∀ b ∈ bars, 0 < b.close) → bars ≠ [] →
      runBacktestApi c bars =
        Except.ok
          ⟨summarize (toParams c) (liquidate bars (runLoop (toParams c) bars)),
            (liquidate bars (runLoop (toParams c) bars)).trades,
            (liquidate bars (runLoop (toParams c) bars)).snapshots⟩) := by
  have hv : validateConfig c = true := by
    simp [validateConfig, hsl, htp, hamt, hsym1, hsym2]
  refine ⟨hv, fun _ _ _ _ hne => ?_⟩
  have hempty : bars.isEmpty = false := by
    cases bars with
    | nil => exact absurd rfl hne
    | cons a t => rfl
  unfold runBacktestApi executeBacktest
  rw [hv, hempty]
  rfl

/-- Witness for `validation_field_level_only` at `cfgBad` (strictly
negative cash, reversed dates, positive windows) and the one-bar series. -/
theorem validation_field_level_only_witness :
    validateConfig cfgBad = true ∧
    runBacktestApi cfgBad oneBar =
      Except.ok
        ⟨summarize (toParams cfgBad)
            (liquidate oneBar (runLoop (toParams cfgBad) oneBar)),
          (liquidate oneBar (runLoop (toParams cfgBad) oneBar)).trades,
          (liquidate oneBar (runLoop (toParams cfgBad) oneBar)).snapshots⟩ :=
  have h := validation_field_level_only cfgBad oneBar (by decide) (by decide)
    (by with_unfolding_all rfl) (by with_unfolding_all rfl)
    (by with_unfolding_all rfl)
    (Or.inl (by norm_num [cfgBad]))
  ⟨h.1, h.2 (by decide) (by decide) (by norm_num [cfgBad])
    (by
      intro b hb
      simp only [oneBar, List.mem_singleton] at hb
      rw [hb]
      norm_num)
    (by simp [oneBar])⟩

/-- Effects already written are never retracted: the loop only appends. -/
lemma traceLoop_effects_mono (P : Params) (bars : List Bar) :
    ∀ (fuel i : Nat) (st : EngineState) (effs : List Effect),
      ∃ tl, (traceLoop P bars fuel i st effs).1 = effs ++ tl := by
  intro fuel
  induction fuel with
  | zero => exact fun i st effs => ⟨[], by simp [traceLoop]⟩
  | succ n ih =>
    intro i st effs
    unfold traceLoop
    split
    · split
      · exact ⟨[], by simp⟩
      · obtain ⟨tl, htl⟩ :=
          ih (i + 1) (stepBar P bars i st)
            (effs ++ newEffects st (stepBar P bars i st))
        exact ⟨newEffects st (stepBar P bars i st) ++ tl, by
          rw [htl, List.append_assoc]⟩
    · exact ih (i + 1) st effs

/-- C9, amended.  Runs are not atomic.  The empty-series failure is raised
before anything is written, so it leaves nothing; but the placeholder
result row is created before the loop and snapshots/trades are written as
the loop goes, with no transaction — when the duplicate-snapshot-date
constraint aborts a run mid-loop, everything already written (at least the
result row) stays observable. -/
theorem run_effects_incremental (P : Params) (bars : List Bar) :
    (bars = [] → runTrace P bars = ([], some DbFailure.dataUnavailable)) ∧
    ((runTrace P bars).2 = some DbFailure.duplicateSnapshotDate →
      (runTrace P bars).1.head? = some Effect.createResult) := by
  constructor
  · intro h
    subst h
    rfl
  · intro h
    unfold runTrace at h ⊢
    by_cases he : bars.isEmpty = true
    · rw [if_pos he] at h
      simp at h
    · rw [if_neg he] at h ⊢
      rcases htl : traceLoop P bars bars.length 0 (initState P)
        [Effect.createResult] with ⟨effs, st2, b⟩
      rw [htl] at h
      cases b
      · obtain ⟨tl, h2⟩ := traceLoop_effects_mono P bars bars.length 0
          (initState P) [Effect.createResult]
        rw [htl] at h2
        have h3 : effs = [Effect.createResult] ++ tl := h2
        show effs.head? = some Effect.createResult
        rw [h3]
        rfl
      · exact Option.noConfusion
          (h : (none : Option DbFailure) = some DbFailure.duplicateSnapshotDate)

/-- Witness for `run_effects_incremental`: the duplicate-date abort on
`dupBars` leaves the created result row observable. -/
theorem run_effects_incremental_witness :
    (runTrace Pone dupBars).1.head? = some Effect.createResult :=
  (run_effects_incremental Pone dupBars).2 (by with_unfolding_all rfl)

/-- A snapshot row without its daily-return field — the only field on
which the two engine copies disagree. -/
def dropDR (s : Snapshot) : Nat × ℚ × ℚ × ℚ × ℚ × Nat :=
  (s.date, s.totalPortfolioValue, s.cashBalance, s.peakPortfolioValue,
    s.drawdown, s.openPositionsCount)

/-- Lockstep relation between the two engines' states: identical except
possibly in the stored daily-return values. -/
def Agrees (a b : EngineState) : Prop :=
  b = { a with snapshots := b.snapshots } ∧
  a.snapshots.map dropDR = b.snapshots.map dropDR

/-- The shared post-snapshot logic preserves the lockstep relation. -/
lemma agrees_afterSnapshot (P : Params) (bars : List Bar) (i : Nat)
    (sS sL : ℚ) (st : EngineState) (S : List Snapshot)
    (hmap : st.snapshots.map dropDR = S.map dropDR) :
    Agrees (afterSnapshot P bars i sS sL st)
      (afterSnapshot P bars i sS sL { st with snapshots := S }) := by
  constructor
  · rw [afterSnapshot_frame]
  · rw [afterSnapshot_frame, afterSnapshot_snapshots]
    exact hmap

/-- One bar keeps the two engines in lockstep. -/
lemma stepAgrees (P : Params) (bars : List Bar) (i : Nat)
    (a b : EngineState) (h : Agrees a b) :
    Agrees (stepBar P bars i a) (stepBarB P bars i b) := by
  obtain ⟨ac, apos, apv, apk, atc, atr, asn⟩ := a
  obtain ⟨bc, bpos, bpv, bpk, btc, btr, bsn⟩ := b
  obtain ⟨heq, hmap⟩ := h
  injection heq with h1 h2 h3 h4 h5 h6 h7
  subst h1; subst h2; subst h3; subst h4; subst h5; subst h6
  rcases hb : bothDefined P bars i with _ | _
  · rw [stepBar_undef P bars i _ hb, stepBarB_undef P bars i _ hb]
    exact ⟨rfl, hmap⟩
  · have hs := hb
    unfold bothDefined at hs
    rw [Bool.and_eq_true, Option.isSome_iff_exists, Option.isSome_iff_exists] at hs
    obtain ⟨⟨sS, hS⟩, sL, hL⟩ := hs
    rw [stepBar_def P bars i _ sS sL hS hL, stepBarB_def P bars i _ sS sL hS hL]
    exact agrees_afterSnapshot P bars i sS sL _ _ (by
      rw [List.map_append, List.map_append, hmap]
      rfl)

/-- The whole loops stay in lockstep. -/
lemma runAgrees (P : Params) (bars : List Bar) (n : Nat) :
    Agrees (runUpTo P bars n) (runUpToB P bars n) := by
  induction n with
  | zero => exact ⟨rfl, rfl⟩
  | succ n ih =>
    rw [runUpTo_succ, runUpToB_succ]
    exact stepAgrees P bars n _ _ ih

/-- Liquidation does not read or write the snapshot list. -/
lemma liquidate_frame (bars : List Bar) (st : EngineState)
    (S : List Snapshot) :
    liquidate bars { st with snapshots := S } =
      { liquidate bars st with snapshots := S } := by
  obtain ⟨c, pos0, pv0, pk, tc, tr, sn⟩ := st
  cases pos0 <;> rfl

/-- Liquidation preserves the lockstep relation. -/
lemma agrees_liquidate (bars : List Bar) (a b : EngineState)
    (h : Agrees a b) : Agrees (liquidate bars a) (liquidate bars b) := by
  obtain ⟨heq, hmap⟩ := h
  have h2 : liquidate bars b = { liquidate bars a with snapshots := b.snapshots } := by
    rw [heq, liquidate_frame]
  refine ⟨by rw [h2], ?_⟩
  rw [h2]
  show (liquidate bars a).snapshots.map dropDR = b.snapshots.map dropDR
  have h3 : (liquidate bars a).snapshots = a.snapshots := by
    have := liquidate_frame bars a a.snapshots
    calc (liquidate bars a).snapshots
        = (liquidate bars { a with snapshots := a.snapshots }).snapshots := rfl
      _ = a.snapshots := by rw [this]
  rw [h3]
  exact hmap

/-- C10.  The two engine copies are behaviourally equivalent on their
trading logic: on the same bar series and parameters they produce the same
trade list (same entries, exits, quantities, order), the same final cash,
the same trade count and the same peak value; they differ only in the
snapshots' stored daily-return figures. -/
theorem engines_equivalent (P : Params) (bars : List Bar) :
    (liquidate bars (runLoop P bars)).trades =
      (liquidate bars (runLoopB P bars)).trades ∧
    (liquidate bars (runLoop P bars)).cash =
      (liquidate bars (runLoopB P bars)).cash ∧
    (liquidate bars (runLoop P bars)).tradesCount =
      (liquidate bars (runLoopB P bars)).tradesCount ∧
    (liquidate bars (runLoop P bars)).peakValue =
      (liquidate bars (runLoopB P bars)).peakValue := by
  obtain ⟨heq, _⟩ := agrees_liquidate bars _ _ (runAgrees P bars bars.length)
  have heq2 : liquidate bars (runLoopB P bars) =
      { liquidate bars (runLoop P bars) with
        snapshots := (liquidate bars (runLoopB P bars)).snapshots } := heq
  rw [heq2]
  exact ⟨rfl, rfl, rfl, rfl⟩

/-- C1, counterexample.  A one-bar series under windows 1/2: the single bar
is a warm-up bar (the long average is undefined), the loop `continue`s
before the snapshot insert, and the run emits zero snapshots — not one per
bar processed as claimed. -/
theorem warmup_bar_no_snapshot :
    ((executeBacktest Pdemo oneBar).toOption.map (fun r => r.snapshots.length)) =
      some 0 ∧ oneBar.length = 1 :=
  ⟨by with_unfolding_all rfl, rfl⟩

/-- C2.  On `demoBars` the snapshot series records portfolio values
dipping to 50 and a drawdown of 50 %, but the stored outcome has
`lowest_stock_value = 100` (the minimum of the *final* loop value and the
starting amount) and `drawdown = 0` (peak against final cash) — the code
contradicts its own model documentation ("Lowest portfolio value reached
during backtest", "Maximum drawdown percentage from peak"). -/
theorem trough_drawdown_last_value_eval :
    ((executeBacktest Pdemo demoBars).toOption.map (fun r =>
      (r.outcome.lowestStockValue,
        r.snapshots.map (·.totalPortfolioValue),
        r.outcome.drawdown,
        r.snapshots.map (·.drawdown)))) =
      some (100, [100, 100, 100, 50, 50, 100], 0, [0, 0, 0, 50, 50, 0]) := by
  with_unfolding_all rfl

/-- C3, counterexample.  One bar, windows 2/3: fewer bars than the smaller
window, yet the run does not fail — it returns a degenerate Outcome
(closing = starting, zero trades, zero snapshots) instead of a distinct
InsufficientHistory error. -/
theorem short_series_degenerate_outcome :
    (executeBacktest Pwide oneBar).toOption =
      some ⟨⟨100, 100, 0, 0, 0, 100, 100, 0⟩, [], []⟩ := by
  with_unfolding_all rfl

/-- C5, counterexample.  After bar 3 of `demoBars` (a golden-cross entry
bar) the state machine's final decision for that bar is HOLDING with cash
0, yet the snapshot emitted for that bar records `openPositionsCount = 0`
and `cashBalance = 100`: the snapshot is taken before, not after, the
bar's decision. -/
theorem snapshot_before_decision_cex :
    (runUpTo Pdemo demoBars 4).position.isSome = true ∧
    (runUpTo Pdemo demoBars 4).cash = 0 ∧
    ((runUpTo Pdemo demoBars 4).snapshots.getLast?.map
      (fun s => (s.openPositionsCount, s.cashBalance))) = some (0, 100) :=
  ⟨by with_unfolding_all rfl, by with_unfolding_all rfl,
    by with_unfolding_all rfl⟩

/-- C6, counterexample.  In the primary engine every snapshot stores
`daily_return = 0`; on `demoBars` the fourth snapshot follows a drop from
100 to 50, where the claimed formula gives −50, not 0. -/
theorem daily_return_zero_cex :
    ((runLoop Pdemo demoBars).snapshots.map
      (fun s => (s.dailyReturn, s.totalPortfolioValue))) =
      [(0, 100), (0, 100), (0, 100), (0, 50), (0, 50), (0, 100)] ∧
    ((50 : ℚ) - 100) / 100 * 100 ≠ 0 :=
  ⟨by with_unfolding_all rfl, by norm_num⟩

/-- C8, counterexample.  `cfgBad` has negative starting cash and
startDate > endDate, yet serializer validation accepts it and the engine
runs to completion and produces an Outcome — nothing rejects it as an
invalid configuration. -/
theorem invalid_config_accepted_cex :
    validateConfig cfgBad = true ∧ cfgBad.startingAmount < 0 ∧
    cfgBad.endDate < cfgBad.startDate ∧
    (runBacktestApi cfgBad oneBar).toOption =
      some ⟨⟨-100, -100, 0, 0, 0, -100, -100, 0⟩, [], []⟩ :=
  ⟨by with_unfolding_all rfl, by norm_num [cfgBad], by decide,
    by with_unfolding_all rfl⟩

/-- C9, counterexample.  Two bars sharing a date: the second snapshot
insert violates the unique-date constraint and aborts the run, but the
placeholder result row and the first snapshot have already been written —
a failed run leaves observable partial results. -/
theorem partial_effects_on_failure_cex :
    runTrace Pone dupBars =
      ([Effect.createResult, Effect.createSnapshot ⟨5, 100, 100, 0, 100, 0, 0⟩],
        some DbFailure.duplicateSnapshotDate) ∧
    (runTrace Pone dupBars).1.length = 2 :=
  ⟨by with_unfolding_all rfl, by with_unfolding_all rfl⟩
